import Mathlib

/-!
Verification development for the fx-dashboard server.

The repository contains three iterations of the same `server.js`
(referred to below as part_000, part_001 and part_002) plus a service
worker.  This file gives a shallow embedding of the core data model and
operations: the request-parameter parsers, the tick store and its range
query, the OHLC candle aggregation fold, the collection cycle
(`refresh`), the two batch-save paths (`saveTicks` with the
`Number.isFinite` guard, and the part_001 variant that tests entries by
JavaScript truthiness), and the two `/api/analysis` handlers (part_001
with a global cooldown, part_002 with the stale-cache rate-limit
fallback).

Conventions of the embedding:
* JavaScript numbers that are known to be finite are modelled by `ℚ`;
  where finiteness is the point (the batch-save guards) the type
  `JsNum` distinguishes finite values, `NaN` and the infinities.
* Timestamps are `Nat` (epoch milliseconds; `Date.now()` is
  non-negative).  `now - rangeMs` in JavaScript may go negative; with
  `Nat` truncated subtraction the query lower bound clamps at `0`,
  which filters the same set of non-negative timestamps.
* `null`/`undefined` fields are `Option`.
* A thrown/rejected fetch is the `err` constructor of `Fetched`.
-/

namespace FxDash

/-! ### Time / parameter parsing (part_002 lines 19-45, part_000 lines 15-39)

`parseRangeToMs` embeds

```js
function parseRangeToMs(range) {
  const m = String(range || "7d").match(/^(\d+)([dh])$/);
  if (!m) return 7 * 24 * 60 * 60 * 1000;
  const n = parseInt(m[1], 10);
  return m[2] === "d" ? n * 24 * 60 * 60 * 1000 : n * 60 * 60 * 1000;
}
```

and `intervalToMs` the part_002 variant accepting `s`, `m`, `h` with
default `30m`.  The regex `^(\d+)([smh])$` is embedded by
`parseNumUnit`: the string must be one or more digits followed by a
single unit character. -/

/-- Numeric value of a list of decimal digit characters (the `parseInt`
of the digits matched by `(\d+)`). -/
def digitsToNat (cs : List Char) : Nat :=
  cs.foldl (fun a c => a * 10 + (c.toNat - 48)) 0

/-- Split a character list into its leading part and its last
character. -/
def splitLast : List Char → Option (List Char × Char)
  | [] => none
  | [c] => some ([], c)
  | c :: rest => (splitLast rest).map (fun p => (c :: p.1, p.2))

/-- Embedding of the anchored regex match `^(\d+)([u1u2...])$`:
succeeds iff the string is one or more digits followed by one of the
accepted unit characters. -/
def parseNumUnit (s : String) (units : List Char) : Option (Nat × Char) :=
  match splitLast s.data with
  | none => none
  | some (ds, u) =>
    if ds ≠ [] ∧ ds.all Char.isDigit ∧ u ∈ units then some (digitsToNat ds, u) else none

/-- part_002 lines 27-33: `"7d"`, `"30d"`, `"24h"`; an empty string is
replaced by `"7d"` (JavaScript `range || "7d"`); an unparseable string
silently yields the 7-day default. -/
def parseRangeToMs (range : String) : Nat :=
  let s := if range = "" then "7d" else range
  match parseNumUnit s ['d', 'h'] with
  | none => 7 * 24 * 60 * 60 * 1000
  | some (n, u) => if u = 'd' then n * 24 * 60 * 60 * 1000 else n * 60 * 60 * 1000

/-- part_002 lines 34-42: `"10s"`, `"1m"`, `"30m"`, `"2h"`; an
unparseable string silently yields the 30-minute default. -/
def intervalToMs (interval : String) : Nat :=
  let s := if interval = "" then "30m" else interval
  match parseNumUnit s ['s', 'm', 'h'] with
  | none => 30 * 60 * 1000
  | some (n, u) =>
    if u = 's' then n * 1000
    else if u = 'm' then n * 60 * 1000
    else n * 60 * 60 * 1000

/-- part_002 lines 43-45: `Math.floor(ts / bucketMs) * bucketMs` (for
non-negative `ts`, `Nat` division is the floor). -/
def bucketStart (ts bucketMs : Nat) : Nat :=
  ts / bucketMs * bucketMs

/-! ### Tick store (part_000/part_002: SQLite table `ticks`)

The table `ticks(ts INTEGER, symbol TEXT, value REAL)` has no
uniqueness constraint; rows are `INSERT`ed in order.  We model the
table as the list of its rows in insertion order.  The prepared range
query (part_002 line 61)

```sql
SELECT ts, value FROM ticks WHERE symbol=? AND ts>=? AND ts<=? ORDER BY ts ASC
```

filters by symbol and closed interval and sorts ascending by `ts`;
`ORDER BY` leaves the relative order of equal keys unspecified, so we
model it by a stable insertion sort on the timestamp. -/

/-- One row of the `ticks` table. -/
structure Tick where
  ts : Nat
  symbol : String
  value : ℚ
deriving DecidableEq, Repr

/-- Comparison used by `ORDER BY ts ASC` on selected rows. -/
def tsLe (x y : Nat × ℚ) : Prop := x.1 ≤ y.1

instance : DecidableRel tsLe := fun x y => Nat.decLe x.1 y.1

instance : IsTotal (Nat × ℚ) tsLe := ⟨fun x y => Nat.le_total x.1 y.1⟩

instance : IsTrans (Nat × ℚ) tsLe := ⟨fun _ _ _ hab hbc => Nat.le_trans hab hbc⟩

/-- The prepared statement `selectTicks` (part_002 line 61 /
part_000 line 56). -/
def selectTicks (store : List Tick) (symbol : String) (a b : Nat) : List (Nat × ℚ) :=
  List.insertionSort tsLe
    ((store.filter (fun t => t.symbol == symbol && decide (a ≤ t.ts) && decide (t.ts ≤ b))).map
      (fun t => (t.ts, t.value)))

/-! ### OHLC candle aggregation (part_002 lines 206-225)

```js
const map = new Map();
for (const r of rows) {
  const b = bucketStart(r.ts, bucketMs);
  const v = r.value;
  if (!map.has(b)) map.set(b, { t: b, o: v, h: v, l: v, c: v });
  else {
    const x = map.get(b);
    x.h = Math.max(x.h, v);
    x.l = Math.min(x.l, v);
    x.c = v;
  }
}
return Array.from(map.values()).sort((a, b) => a.t - b.t);
```

A JavaScript `Map` preserves insertion order and `set` on an existing
key updates in place, which is exactly `mapUpsert` on an association
list. -/

/-- A candle `{ t, o, h, l, c }`. -/
structure Candle where
  t : Nat
  o : ℚ
  h : ℚ
  l : ℚ
  c : ℚ
deriving DecidableEq, Repr

/-- First tick seen for a bucket: `{ t: b, o: v, h: v, l: v, c: v }`. -/
def newCandle (b : Nat) (v : ℚ) : Candle :=
  ⟨b, v, v, v, v⟩

/-- Subsequent tick for a bucket: `h = max h v`, `l = min l v`,
`c = v` (`o` and `t` unchanged). -/
def updCandle (x : Candle) (v : ℚ) : Candle :=
  { x with h := max x.h v, l := min x.l v, c := v }

/-- `map.has`/`map.get` of the JavaScript `Map` of buckets. -/
def mapGet : List (Nat × Candle) → Nat → Option Candle
  | [], _ => none
  | (k, x) :: rest, b => if k = b then some x else mapGet rest b

/-- One loop iteration: update the accumulator for bucket `b` with
value `v` (insert a fresh candle, or fold into the existing one). -/
def mapUpsert : List (Nat × Candle) → Nat → ℚ → List (Nat × Candle)
  | [], b, v => [(b, newCandle b v)]
  | (k, x) :: rest, b, v =>
    if k = b then (k, updCandle x v) :: rest else (k, x) :: mapUpsert rest b v

/-- The whole `for (const r of rows)` loop. -/
def foldRows (w : Nat) (rows : List (Nat × ℚ)) : List (Nat × Candle) :=
  rows.foldl (fun m r => mapUpsert m (bucketStart r.1 w) r.2) []

/-- Comparison used by `.sort((a, b) => a.t - b.t)`. -/
def candleLe (x y : Candle) : Prop := x.t ≤ y.t

instance : DecidableRel candleLe := fun x y => Nat.decLe x.t y.t

instance : IsTotal Candle candleLe := ⟨fun x y => Nat.le_total x.t y.t⟩

instance : IsTrans Candle candleLe := ⟨fun _ _ _ hab hbc => Nat.le_trans hab hbc⟩

/-- `Array.from(map.values()).sort((a, b) => a.t - b.t)` applied to the
folded buckets. -/
def aggregateRows (w : Nat) (rows : List (Nat × ℚ)) : List Candle :=
  List.insertionSort candleLe ((foldRows w rows).map Prod.snd)

/-- `getCandles(symbol, interval, range)` (part_002 lines 206-225 and,
identically inlined, the part_000 `/api/candles` handler lines
218-245): parse the parameters, query the closed range
`[now - rangeMs, now]`, fold into buckets and sort. -/
def getCandles (store : List Tick) (now : Nat) (symbol interval range : String) : List Candle :=
  let bucketMs := intervalToMs interval
  let start := now - parseRangeToMs range
  aggregateRows bucketMs (selectTicks store symbol start now)

/-! ### Characterisation of the OHLC fold -/

/-- Per-bucket accumulation step, seen from a single bucket: `none` if
no tick of the bucket has been processed yet. -/
def ohlcAcc (b : Nat) (acc : Option Candle) (v : ℚ) : Option Candle :=
  some (match acc with | none => newCandle b v | some x => updCandle x v)

/-- Last element of a list with an explicit default (the value a
`close` accumulator holds after folding the list over a seed). -/
def lastD (d : ℚ) : List ℚ → ℚ
  | [] => d
  | v :: vs => lastD v vs

/-- The rows of a query result that fall into bucket `b`. -/
def bucketRows (w b : Nat) (rows : List (Nat × ℚ)) : List (Nat × ℚ) :=
  rows.filter (fun r => decide (bucketStart r.1 w = b))

/-- Well-formedness of the bucket `Map`: keys are distinct, and each
candle records its own bucket key in `t`. -/
def goodMap (m : List (Nat × Candle)) : Prop :=
  (m.map Prod.fst).Nodup ∧ ∀ p ∈ m, (p.2).t = p.1

/-! ### JavaScript numbers and the two batch-save paths

`saveTicks` in part_000/part_002 (lines 155-164 / 147-156) guards each
entry with `typeof value === "number" && Number.isFinite(value)`;
`saveTicks` in part_001 (lines 187-201) instead tests each fixed field
by JavaScript truthiness (`if (data.USDKRW) rows.push(...)`).  To state
anything about non-finite values we need a value type distinguishing
finite numbers, `NaN` and the two infinities; `null`/`undefined`
entries are `Option.none`. -/

/-- A JavaScript number: a finite value, `NaN`, `Infinity` or
`-Infinity`. -/
inductive JsNum where
  | num (q : ℚ)
  | nan
  | inf
  | ninf
deriving DecidableEq, Repr

/-- `Number.isFinite`. -/
def JsNum.isFinite : JsNum → Bool
  | .num _ => true
  | _ => false

/-- JavaScript truthiness of a number: `0` and `NaN` are falsy, every
other number (including the infinities) is truthy. -/
def JsNum.truthy : JsNum → Bool
  | .num q => decide (q ≠ 0)
  | .nan => false
  | .inf => true
  | .ninf => true

/-- part_000 lines 155-164 / part_002 lines 147-156: insert one tick
per entry whose value passes
`typeof value === "number" && Number.isFinite(value)` (a `none` entry
is `null` and fails the `typeof` test).  The result is the list of rows
the transaction appends to the `ticks` table. -/
def saveTicks (ts : Nat) (entries : List (String × Option JsNum)) : List Tick :=
  entries.filterMap (fun p =>
    match p.2 with
    | some (JsNum.num q) => some (Tick.mk ts p.1 q)
    | _ => none)

/-- The argument object of the part_001 `saveTicks` (fixed five
fields). -/
structure BatchData where
  USDKRW : Option JsNum
  EURKRW : Option JsNum
  DXY : Option JsNum
  KR10Y : Option JsNum
  US10Y : Option JsNum
deriving DecidableEq, Repr

/-- `if (data.F) rows.push([ts, "F", data.F])` for one field. -/
def pushIf (ts : Nat) (sym : String) : Option JsNum → List (Nat × String × JsNum)
  | some v => if v.truthy then [(ts, sym, v)] else []
  | none => []

/-- The `rows` array built by the part_001 `saveTicks` (lines
193-198). -/
def rowsTruthy (ts : Nat) (d : BatchData) : List (Nat × String × JsNum) :=
  pushIf ts "USDKRW" d.USDKRW ++ pushIf ts "EURKRW" d.EURKRW ++ pushIf ts "DXY" d.DXY ++
    pushIf ts "KR10Y" d.KR10Y ++ pushIf ts "US10Y" d.US10Y

/-- part_001 lines 187-201: `if (rows.length > 0) insertMany(rows)`.
This store may contain non-finite values, hence its `JsNum`-valued
rows. -/
def saveTicksTruthy (store : List (Nat × String × JsNum)) (ts : Nat) (d : BatchData) :
    List (Nat × String × JsNum) :=
  let rows := rowsTruthy ts d
  if rows.length > 0 then store ++ rows else store

/-- Names of the five fixed fields of `BatchData`. -/
inductive Field5 where
  | usdkrw
  | eurkrw
  | dxy
  | kr10y
  | us10y
deriving DecidableEq, Repr

/-- Field accessor. -/
def fieldGet (d : BatchData) : Field5 → Option JsNum
  | .usdkrw => d.USDKRW
  | .eurkrw => d.EURKRW
  | .dxy => d.DXY
  | .kr10y => d.KR10Y
  | .us10y => d.US10Y

/-- Tick-table symbol written for each field. -/
def fieldSym : Field5 → String
  | .usdkrw => "USDKRW"
  | .eurkrw => "EURKRW"
  | .dxy => "DXY"
  | .kr10y => "KR10Y"
  | .us10y => "US10Y"

/-! ### The collection cycle `refresh` (part_000 lines 166-209)

The four `try` blocks fetch, in order: FX (one call yielding the two
values `usdkrw`/`eurkrw`, each possibly `null`), `kr10y`, `us10y`,
`dxy`.  A caught failure pushes the error message and sets
`status = "WARN"`; a success overwrites the corresponding `state`
slots (for FX only the non-`null` members).  After the four blocks the
spread is recomputed from the *current* (possibly stale) slots when
both are numbers, and the whole merged state is handed to `saveTicks`
under this cycle's timestamp. -/

/-- The `status` strings of the part_000 `state` record. -/
inductive Status where
  | BOOT
  | OK
  | WARN
deriving DecidableEq, Repr

/-- The part_000 `state` record (lines 59-67).  Slots hold finite
numbers or `null`; the crawlers only ever produce finite numbers
(`parseFloat` of a digits-and-dot regex match). -/
structure SnapState where
  asofKST : Option String
  status : Status
  usdkrw : Option ℚ
  eurkrw : Option ℚ
  dxy : Option ℚ
  kr10y : Option ℚ
  us10y : Option ℚ
  spread10y : Option ℚ
  errors : List String
deriving DecidableEq, Repr

/-- Result of one awaited crawler call: a value, or a thrown error
with its message. -/
inductive Fetched (α : Type) where
  | ok (v : α)
  | err (msg : String)
deriving DecidableEq, Repr

/-- The four fetch results of one cycle.  `crawlNaverFx` resolves to
`{ usdkrw, eurkrw }` where each member may be `null` (it throws only
when both are). -/
structure FetchOutcomes where
  fx : Fetched (Option ℚ × Option ℚ)
  kr : Fetched ℚ
  us : Fetched ℚ
  dxy : Fetched ℚ
deriving DecidableEq, Repr

/-- `+(x).toFixed(3)` (line 192), modelled as rounding to 3 decimal
places over `ℚ`. -/
def round3 (q : ℚ) : ℚ :=
  ((round (q * 1000) : ℤ) : ℚ) / 1000

/-- `if (typeof new === "number") state.slot = new` — overwrite a slot
only when the freshly crawled member is a number. -/
def overwriteIfNum (old new : Option ℚ) : Option ℚ :=
  match new with
  | some x => some x
  | none => old

/-- Merge one single-indicator fetch into its slot: a success
overwrites, a caught failure leaves the slot untouched. -/
def mergeOpt (old : Option ℚ) : Fetched ℚ → Option ℚ
  | .ok v => some v
  | .err _ => old

/-- Error message contributed by one fetch. -/
def errOf {α : Type} : Fetched α → List String
  | .ok _ => []
  | .err m => [m]

/-- Lines 191-193: recompute the spread from the current slots when
both are numbers, else keep the previous `spread10y`. -/
def spreadOf (old : Option ℚ) : Option ℚ → Option ℚ → Option ℚ
  | some u, some k => some (round3 (u - k))
  | _, _ => old

/-- One collection cycle (part_000 lines 166-209).  Returns the new
`state` and the batch of ticks appended to the store (the result of
`saveTicks(ts, {...})` on the merged state). -/
def refresh (st : SnapState) (f : FetchOutcomes) (ts : Nat) (asof : String) :
    SnapState × List Tick :=
  let usdkrw' := match f.fx with | .ok uv => overwriteIfNum st.usdkrw uv.1 | .err _ => st.usdkrw
  let eurkrw' := match f.fx with | .ok uv => overwriteIfNum st.eurkrw uv.2 | .err _ => st.eurkrw
  let kr10y' := mergeOpt st.kr10y f.kr
  let us10y' := mergeOpt st.us10y f.us
  let dxy' := mergeOpt st.dxy f.dxy
  let errors' := errOf f.fx ++ errOf f.kr ++ errOf f.us ++ errOf f.dxy
  let status' := if errors' = [] then Status.OK else Status.WARN
  let spread10y' := spreadOf st.spread10y us10y' kr10y'
  let batch := saveTicks ts
    [("USDKRW", usdkrw'.map JsNum.num), ("EURKRW", eurkrw'.map JsNum.num),
      ("DXY", dxy'.map JsNum.num), ("KR10Y", kr10y'.map JsNum.num),
      ("US10Y", us10y'.map JsNum.num), ("SPREAD10Y", spread10y'.map JsNum.num)]
  (⟨some asof, status', usdkrw', eurkrw', dxy', kr10y', us10y', spread10y',
    errors'.take 6⟩, batch)

/-- The three single-indicator fetches of a cycle (the FX fetch covers
the remaining two indicators in one call). -/
inductive Ind3 where
  | kr
  | us
  | dxy
deriving DecidableEq, Repr

/-- Fetch outcome of a single-indicator fetch. -/
def fetchOf (f : FetchOutcomes) : Ind3 → Fetched ℚ
  | .kr => f.kr
  | .us => f.us
  | .dxy => f.dxy

/-- Snapshot slot of a single-indicator fetch. -/
def slotOf (st : SnapState) : Ind3 → Option ℚ
  | .kr => st.kr10y
  | .us => st.us10y
  | .dxy => st.dxy

/-- Tick-table symbol of a single-indicator fetch. -/
def symOf : Ind3 → String
  | .kr => "KR10Y"
  | .us => "US10Y"
  | .dxy => "DXY"

/-! ### Analysis guard, part_001 (`/api/analysis`, lines 334-407)

Control flow of the handler: per-subject cache check first (TTL 12 h);
then the global cooldown check (5 min) returning HTTP 429 with a
`retryAfter`; then the API-key check (503); then, inside `try`,
`lastAnalysisTime = now` is recorded *before* the downstream call; on
success the result is cached and returned; a downstream 429 is
answered with HTTP 429 / `retryAfter: 300`; any other failure with
HTTP 500.  The downstream call itself is an external collaborator, so
its outcome is a parameter of type `Gen`. -/

/-- Outcome of the downstream generation collaborator: a text, a
rate-limit error (`err.status === 429` in part_001, a message matching
`429`/`rate limit` in part_002), or any other failure. -/
inductive Gen where
  | ok (text : String)
  | rateLimited
  | fail (msg : String)
deriving DecidableEq, Repr

/-- part_001 line 70: cache TTL, 12 hours. -/
def ANALYSIS_TTL_MS : Nat := 12 * 60 * 60 * 1000

/-- part_001 line 71: global cooldown, 5 minutes. -/
def ANALYSIS_COOLDOWN_MS : Nat := 5 * 60 * 1000

/-- The `result` object cached and returned by the part_001 handler
(lines 385-390). -/
structure PayloadA where
  symbol : String
  analysis : String
  asofKST : String
  cachedUntil : Nat
deriving DecidableEq, Repr

/-- A part_001 cache entry `{ data, timestamp }`. -/
structure EntryA where
  data : PayloadA
  timestamp : Nat
deriving DecidableEq, Repr

/-- The mutable guard state of part_001: `analysisCache` (a `Map` keyed
by `"analysis_" + symbol`) and `lastAnalysisTime`. -/
structure GuardA where
  cache : List (String × EntryA)
  lastAnalysisTime : Nat
deriving DecidableEq, Repr

/-- `Map.get`. -/
def cacheGetA : List (String × EntryA) → String → Option EntryA
  | [], _ => none
  | (k, e) :: rest, key => if k = key then some e else cacheGetA rest key

/-- `Map.set`: update in place, or append a new binding. -/
def cacheSetA : List (String × EntryA) → String → EntryA → List (String × EntryA)
  | [], key, e => [(key, e)]
  | (k, e') :: rest, key, e =>
    if k = key then (k, e) :: rest else (k, e') :: cacheSetA rest key e

/-- The possible responses of the part_001 handler, with their HTTP
status codes in `statusOfA`. -/
inductive OutcomeA where
  | cachedHit (p : PayloadA)
  | wait (retryAfter : Nat)
  | noKey
  | fresh (p : PayloadA)
  | rateLimited429
  | genError
deriving DecidableEq, Repr

/-- HTTP status of each part_001 response (lines 342, 348, 355, 393,
399, 405). -/
def statusOfA : OutcomeA → Nat
  | .cachedHit _ => 200
  | .wait _ => 429
  | .noKey => 503
  | .fresh _ => 200
  | .rateLimited429 => 429
  | .genError => 500

/-- Whether a response is the cooldown "not yet" outcome. -/
def OutcomeA.isWait : OutcomeA → Bool
  | .wait _ => true
  | _ => false

/-- The `try` block of the part_001 handler (lines 358-406):
`lastAnalysisTime = now` first, then the downstream call; the `Bool`
records that the downstream call was made. -/
def analysisCallA (st : GuardA) (symbol asof : String) (now : Nat) (gen : Gen) :
    GuardA × OutcomeA × Bool :=
  let last' := now
  match gen with
  | .ok text =>
    let p : PayloadA := ⟨symbol, text, asof, now + ANALYSIS_TTL_MS⟩
    (⟨cacheSetA st.cache ("analysis_" ++ symbol) ⟨p, now⟩, last'⟩, .fresh p, true)
  | .rateLimited => (⟨st.cache, last'⟩, .rateLimited429, true)
  | .fail _ => (⟨st.cache, last'⟩, .genError, true)

/-- Cooldown (lines 346-352) and API-key (lines 354-356) checks of the
part_001 handler, reached on a cache miss. -/
def cooldownGateA (st : GuardA) (hasKey : Bool) (symbol asof : String) (now : Nat) (gen : Gen) :
    GuardA × OutcomeA × Bool :=
  if now - st.lastAnalysisTime < ANALYSIS_COOLDOWN_MS then
    (st, .wait ((ANALYSIS_COOLDOWN_MS - (now - st.lastAnalysisTime) + 999) / 1000), false)
  else if hasKey then analysisCallA st symbol asof now gen
  else (st, .noKey, false)

/-- The part_001 `/api/analysis` handler.  `gen` is the outcome the
downstream collaborator would produce if called this request. -/
def getAnalysisA (st : GuardA) (hasKey : Bool) (symbol asof : String) (now : Nat) (gen : Gen) :
    GuardA × OutcomeA × Bool :=
  match cacheGetA st.cache ("analysis_" ++ symbol) with
  | some e =>
    if now - e.timestamp < ANALYSIS_TTL_MS then (st, .cachedHit e.data, false)
    else cooldownGateA st hasKey symbol asof now gen
  | none => cooldownGateA st hasKey symbol asof now gen

/-! ### Analysis guard, part_002 (`/api/analysis`, lines 296-463)

Control flow: per-subject cache check first (TTL 2 h, response marked
`cached: true` with `cacheAgeSec`); then inside `try` the API-key check
(HTTP 200 with a degraded notice); then the downstream call.  The
`catch` block classifies the error: a rate limit is answered with the
(possibly expired) cache entry marked degraded if one exists, else a
degraded placeholder; any other error also falls back to a degraded
placeholder.  Every path of this handler answers HTTP 200.  There is
no cooldown in this variant. -/

/-- part_002 line 74: cache TTL, 2 hours. -/
def ANALYSIS_TTL_MS2 : Nat := 2 * 60 * 60 * 1000

/-- The `payload` object cached and returned by the part_002 handler
(lines 414-424); the `inputs` member (snapshot + two candle summaries
+ headlines) is opaque to the claims and elided. -/
structure PayloadB where
  asofKST : String
  symbol : String
  analysis : String
deriving DecidableEq, Repr

/-- A part_002 cache entry `{ ts, payload }`. -/
structure EntryB where
  ts : Nat
  payload : PayloadB
deriving DecidableEq, Repr

/-- `Map.get` on the part_002 cache (keyed by the symbol itself). -/
def cacheGetB : List (String × EntryB) → String → Option EntryB
  | [], _ => none
  | (k, e) :: rest, key => if k = key then some e else cacheGetB rest key

/-- `Map.set` on the part_002 cache. -/
def cacheSetB : List (String × EntryB) → String → EntryB → List (String × EntryB)
  | [], key, e => [(key, e)]
  | (k, e') :: rest, key, e =>
    if k = key then (k, e) :: rest else (k, e') :: cacheSetB rest key e

/-- The possible responses of the part_002 handler. -/
inductive OutcomeB where
  | cachedHit (p : PayloadB) (cacheAgeSec : Nat)
  | noKeyDegraded
  | fresh (p : PayloadB)
  | degradedCached (p : PayloadB)
  | degradedNoCache
  | degradedOther (msg : String)
deriving DecidableEq, Repr

/-- HTTP status of each part_002 response: every `res.status(...)` in
this handler is `200` (lines 303, 314, 429, 438, 445, 455). -/
def statusOfB : OutcomeB → Nat
  | .cachedHit _ _ => 200
  | .noKeyDegraded => 200
  | .fresh _ => 200
  | .degradedCached _ => 200
  | .degradedNoCache => 200
  | .degradedOther _ => 200

/-- The `try`/`catch` of the part_002 handler (lines 310-462), reached
on a cache miss; the `Bool` records that the downstream call was
made. -/
def analysisTryB (cache : List (String × EntryB)) (hasKey : Bool) (symbol asof : String)
    (now : Nat) (gen : Gen) : List (String × EntryB) × OutcomeB × Bool :=
  if hasKey then
    match gen with
    | .ok text =>
      let p : PayloadB := ⟨asof, symbol, text⟩
      (cacheSetB cache symbol ⟨now, p⟩, .fresh p, true)
    | .rateLimited =>
      match cacheGetB cache symbol with
      | some e2 => (cache, .degradedCached e2.payload, true)
      | none => (cache, .degradedNoCache, true)
    | .fail msg => (cache, .degradedOther msg, true)
  else (cache, .noKeyDegraded, false)

/-- The part_002 `/api/analysis` handler. -/
def getAnalysisB (cache : List (String × EntryB)) (hasKey : Bool) (symbol asof : String)
    (now : Nat) (gen : Gen) : List (String × EntryB) × OutcomeB × Bool :=
  match cacheGetB cache symbol with
  | some e =>
    if now - e.ts < ANALYSIS_TTL_MS2 then
      (cache, .cachedHit e.payload ((now - e.ts) / 1000), false)
    else analysisTryB cache hasKey symbol asof now gen
  | none => analysisTryB cache hasKey symbol asof now gen

theorem mapGet_upsert_self (b : Nat) (v : ℚ) :
    ∀ m : List (Nat × Candle),
      mapGet (mapUpsert m b v) b =
        some (match mapGet m b with | none => newCandle b v | some x => updCandle x v)
  | [] => by simp [mapUpsert, mapGet]
  | (k, x) :: rest => by
    by_cases hk : k = b
    · subst hk; simp [mapUpsert, mapGet]
    · simp [mapUpsert, mapGet, hk, mapGet_upsert_self b v rest]

theorem mapGet_upsert_ne (b : Nat) (v : ℚ) (b' : Nat) (hne : b' ≠ b) :
    ∀ m : List (Nat × Candle), mapGet (mapUpsert m b v) b' = mapGet m b'
  | [] => by simp [mapUpsert, mapGet, Ne.symm hne]
  | (k, x) :: rest => by
    by_cases hk : k = b
    · subst hk; simp [mapUpsert, mapGet, Ne.symm hne]
    · simp only [mapUpsert, if_neg hk, mapGet]
      by_cases hk' : k = b'
      · simp [hk']
      · simp [hk', mapGet_upsert_ne b v b' hne rest]

theorem mapGet_foldl (w b : Nat) :
    ∀ (rows : List (Nat × ℚ)) (m : List (Nat × Candle)),
      mapGet (rows.foldl (fun m r => mapUpsert m (bucketStart r.1 w) r.2) m) b =
        ((rows.filter (fun r => decide (bucketStart r.1 w = b))).map Prod.snd).foldl
          (ohlcAcc b) (mapGet m b)
  | [], m => rfl
  | r :: rest, m => by
    rw [List.foldl_cons, mapGet_foldl w b rest]
    by_cases hb : bucketStart r.1 w = b
    · rw [hb, List.filter_cons_of_pos (by simpa using hb)]
      simp [mapGet_upsert_self, ohlcAcc]
    · rw [List.filter_cons_of_neg (by simpa using hb),
        mapGet_upsert_ne (bucketStart r.1 w) r.2 b (fun h => hb h.symm)]

theorem foldl_ohlcAcc_some (b : Nat) :
    ∀ (vs : List ℚ) (x : Candle),
      vs.foldl (ohlcAcc b) (some x) = some (vs.foldl updCandle x)
  | [], _ => rfl
  | v :: vs, x => by
    simp only [List.foldl_cons, ohlcAcc]
    exact foldl_ohlcAcc_some b vs (updCandle x v)

theorem foldl_updCandle_t : ∀ (vs : List ℚ) (x : Candle), (vs.foldl updCandle x).t = x.t
  | [], _ => rfl
  | v :: vs, x => by
    rw [List.foldl_cons, foldl_updCandle_t vs (updCandle x v)]; rfl

theorem foldl_updCandle_o : ∀ (vs : List ℚ) (x : Candle), (vs.foldl updCandle x).o = x.o
  | [], _ => rfl
  | v :: vs, x => by
    rw [List.foldl_cons, foldl_updCandle_o vs (updCandle x v)]; rfl

theorem foldl_updCandle_c :
    ∀ (vs : List ℚ) (x : Candle), (vs.foldl updCandle x).c = lastD x.c vs
  | [], _ => rfl
  | v :: vs, x => by
    rw [List.foldl_cons, foldl_updCandle_c vs (updCandle x v)]; rfl

theorem foldl_updCandle_h :
    ∀ (vs : List ℚ) (x : Candle), (vs.foldl updCandle x).h = vs.foldl max x.h
  | [], _ => rfl
  | v :: vs, x => by
    rw [List.foldl_cons, foldl_updCandle_h vs (updCandle x v), List.foldl_cons]; rfl

theorem foldl_updCandle_l :
    ∀ (vs : List ℚ) (x : Candle), (vs.foldl updCandle x).l = vs.foldl min x.l
  | [], _ => rfl
  | v :: vs, x => by
    rw [List.foldl_cons, foldl_updCandle_l vs (updCandle x v), List.foldl_cons]; rfl

theorem foldl_max_mem (vs : List ℚ) : ∀ a : ℚ, vs.foldl max a ∈ a :: vs := by
  induction vs with
  | nil => intro a; simp
  | cons v vs ih =>
    intro a
    rw [List.foldl_cons]
    rcases List.mem_cons.mp (ih (max a v)) with h | h
    · rcases max_choice a v with hm | hm <;> rw [h, hm] <;> simp
    · simp [h]

theorem le_foldl_max (vs : List ℚ) : ∀ a u : ℚ, u ∈ a :: vs → u ≤ vs.foldl max a := by
  induction vs with
  | nil =>
    intro a u hu
    simp only [List.mem_singleton] at hu
    simp [hu]
  | cons v vs ih =>
    intro a u hu
    rw [List.foldl_cons]
    rcases List.mem_cons.mp hu with rfl | hu
    · exact le_trans (le_max_left u v) (ih (max u v) _ (List.mem_cons_self _ _))
    · rcases List.mem_cons.mp hu with rfl | hu
      · exact le_trans (le_max_right a u) (ih (max a u) _ (List.mem_cons_self _ _))
      · exact ih (max a v) u (List.mem_cons_of_mem _ hu)

theorem foldl_min_mem (vs : List ℚ) : ∀ a : ℚ, vs.foldl min a ∈ a :: vs := by
  induction vs with
  | nil => intro a; simp
  | cons v vs ih =>
    intro a
    rw [List.foldl_cons]
    rcases List.mem_cons.mp (ih (min a v)) with h | h
    · rcases min_choice a v with hm | hm <;> rw [h, hm] <;> simp
    · simp [h]

theorem foldl_min_le (vs : List ℚ) : ∀ a u : ℚ, u ∈ a :: vs → vs.foldl min a ≤ u := by
  induction vs with
  | nil =>
    intro a u hu
    simp only [List.mem_singleton] at hu
    simp [hu]
  | cons v vs ih =>
    intro a u hu
    rw [List.foldl_cons]
    rcases List.mem_cons.mp hu with rfl | hu
    · exact le_trans (ih (min u v) _ (List.mem_cons_self _ _)) (min_le_left u v)
    · rcases List.mem_cons.mp hu with rfl | hu
      · exact le_trans (ih (min a u) _ (List.mem_cons_self _ _)) (min_le_right a u)
      · exact ih (min a v) u (List.mem_cons_of_mem _ hu)

theorem keys_upsert (b : Nat) (v : ℚ) :
    ∀ m : List (Nat × Candle),
      (mapUpsert m b v).map Prod.fst =
        if b ∈ m.map Prod.fst then m.map Prod.fst else m.map Prod.fst ++ [b]
  | [] => by simp [mapUpsert]
  | (k, x) :: rest => by
    by_cases hk : k = b
    · subst hk; simp [mapUpsert]
    · simp only [mapUpsert, if_neg hk, List.map_cons, keys_upsert b v rest, List.mem_cons]
      by_cases hb : b ∈ rest.map Prod.fst
      · simp [hb]
      · simp [hb, Ne.symm hk]

theorem goodMap_upsert (b : Nat) (v : ℚ) :
    ∀ m : List (Nat × Candle), goodMap m → goodMap (mapUpsert m b v)
  | [], _ => by
    constructor
    · simp [mapUpsert]
    · intro p hp
      simp only [mapUpsert, List.mem_singleton] at hp
      subst hp; rfl
  | (k, x) :: rest, hgood => by
    obtain ⟨hnd, ht⟩ := hgood
    simp only [List.map_cons, List.nodup_cons] at hnd
    by_cases hk : k = b
    · subst hk
      refine ⟨by simpa [mapUpsert] using hnd, ?_⟩
      intro p hp
      simp only [mapUpsert, if_pos] at hp
      rw [List.mem_cons] at hp
      rcases hp with hp | hp
      · subst hp
        simpa [updCandle] using ht (k, x) (List.mem_cons_self _ _)
      · exact ht p (List.mem_cons_of_mem _ hp)
    · have hrest : goodMap (mapUpsert rest b v) :=
        goodMap_upsert b v rest ⟨hnd.2, fun p hp => ht p (List.mem_cons_of_mem _ hp)⟩
      constructor
      · simp only [mapUpsert, if_neg hk, List.map_cons, List.nodup_cons]
        refine ⟨?_, hrest.1⟩
        rw [keys_upsert]
        by_cases hb : b ∈ rest.map Prod.fst
        · simp [hb, hnd.1]
        · simp [hb, hnd.1, hk]
      · intro p hp
        simp only [mapUpsert, if_neg hk, List.mem_cons] at hp
        rcases hp with hp | hp
        · subst hp; exact ht (k, x) (List.mem_cons_self _ _)
        · exact hrest.2 p hp

theorem goodMap_foldRows (w : Nat) :
    ∀ (rows : List (Nat × ℚ)) (m : List (Nat × Candle)), goodMap m →
      goodMap (rows.foldl (fun m r => mapUpsert m (bucketStart r.1 w) r.2) m)
  | [], _, h => h
  | r :: rest, m, h => by
    rw [List.foldl_cons]
    exact goodMap_foldRows w rest _ (goodMap_upsert _ _ m h)

theorem mapGet_of_mem :
    ∀ m : List (Nat × Candle), (m.map Prod.fst).Nodup →
      ∀ p ∈ m, mapGet m p.1 = some p.2
  | [], _, _, hmem => by simp at hmem
  | (k', x') :: rest, hnd, p, hmem => by
    simp only [List.map_cons, List.nodup_cons] at hnd
    rcases List.mem_cons.mp hmem with hp | hp
    · subst hp
      simp [mapGet]
    · have hk : k' ≠ p.1 := by
        intro h
        rw [h] at hnd
        exact hnd.1 (List.mem_map_of_mem Prod.fst hp)
      simp [mapGet, hk, mapGet_of_mem rest hnd.2 p hp]

/-- The candle the fold produces for a bucket is the OHLC fold of the
values of exactly the ticks falling in that bucket, in row order. -/
theorem mapGet_foldRows (w : Nat) (rows : List (Nat × ℚ)) (b : Nat) :
    mapGet (foldRows w rows) b =
      ((rows.filter (fun r => decide (bucketStart r.1 w = b))).map Prod.snd).foldl
        (ohlcAcc b) none := by
  rw [foldRows, mapGet_foldl]
  rfl

/-- Every candle in the aggregation output is fully characterised by
the value list of its bucket. -/
theorem aggregate_candle_spec (w : Nat) (rows : List (Nat × ℚ)) (cd : Candle)
    (hcd : cd ∈ aggregateRows w rows) :
    ∃ v vs, (rows.filter (fun r => decide (bucketStart r.1 w = cd.t))).map Prod.snd = v :: vs ∧
      cd.o = v ∧ cd.c = lastD v vs ∧ cd.h = vs.foldl max v ∧ cd.l = vs.foldl min v := by
  have hmem : cd ∈ (foldRows w rows).map Prod.snd :=
    (List.mem_insertionSort candleLe).mp hcd
  obtain ⟨p, hp, hsnd⟩ := List.mem_map.mp hmem
  have hgood : goodMap (foldRows w rows) :=
    goodMap_foldRows w rows [] ⟨List.nodup_nil, by simp⟩
  have hkt : cd.t = p.1 := by rw [← hsnd]; exact hgood.2 p hp
  have hget : mapGet (foldRows w rows) cd.t = some cd := by
    rw [hkt, ← hsnd]
    exact mapGet_of_mem _ hgood.1 p hp
  rw [mapGet_foldRows] at hget
  cases hvals : (rows.filter (fun r => decide (bucketStart r.1 w = cd.t))).map Prod.snd with
  | nil => rw [hvals] at hget; simp at hget
  | cons v vs =>
    rw [hvals, List.foldl_cons] at hget
    have hstep : ohlcAcc cd.t none v = some (newCandle cd.t v) := rfl
    rw [hstep, foldl_ohlcAcc_some] at hget
    injection hget with hget
    refine ⟨v, vs, rfl, ?_, ?_, ?_, ?_⟩
    · rw [← hget, foldl_updCandle_o]; rfl
    · rw [← hget, foldl_updCandle_c]; rfl
    · rw [← hget, foldl_updCandle_h]; rfl
    · rw [← hget, foldl_updCandle_l]; rfl

theorem pairwise_le_head (r0 : Nat × ℚ) (l : List (Nat × ℚ))
    (hs : (r0 :: l).Pairwise (fun x y => x.1 ≤ y.1)) :
    ∀ q ∈ r0 :: l, r0.1 ≤ q.1 := by
  intro q hq
  rcases List.mem_cons.mp hq with hq | hq
  · subst hq; exact le_refl _
  · exact (List.pairwise_cons.mp hs).1 q hq

theorem pairwise_le_lastD :
    ∀ (l : List (Nat × ℚ)) (r0 : Nat × ℚ),
      (r0 :: l).Pairwise (fun x y => x.1 ≤ y.1) →
      ∃ r ∈ r0 :: l, r.2 = lastD r0.2 (l.map Prod.snd) ∧ ∀ q ∈ r0 :: l, q.1 ≤ r.1
  | [], r0, _ => ⟨r0, List.mem_cons_self _ _, rfl, by simp⟩
  | u :: us, r0, hs => by
    obtain ⟨r, hr, hval, hmax⟩ := pairwise_le_lastD us u (List.pairwise_cons.mp hs).2
    refine ⟨r, List.mem_cons_of_mem _ hr, by simpa [lastD] using hval, ?_⟩
    intro q hq
    rcases List.mem_cons.mp hq with hq | hq
    · subst hq
      exact le_trans ((List.pairwise_cons.mp hs).1 r hr) (le_refl _)
    · exact hmax q hq

/-! ### Membership in the two batch-save results -/

/-- A tick of this cycle is in the isFinite-guarded batch iff its
symbol carries exactly that finite value in the entries. -/
theorem mem_saveTicks (ts : Nat) (entries : List (String × Option JsNum)) (sym : String)
    (v : ℚ) :
    Tick.mk ts sym v ∈ saveTicks ts entries ↔ (sym, some (JsNum.num v)) ∈ entries := by
  rw [saveTicks]
  constructor
  · intro h
    obtain ⟨p, hp, hm⟩ := List.mem_filterMap.mp h
    cases hq : p.2 with
    | none => rw [hq] at hm; simp at hm
    | some x =>
      cases x with
      | num q =>
        rw [hq] at hm
        simp only [Option.some.injEq, Tick.mk.injEq] at hm
        obtain ⟨-, h1, h2⟩ := hm
        have hpe : (sym, some (JsNum.num v)) = p := by
          rw [← h1, ← h2, ← hq]
        rw [hpe]
        exact hp
      | nan => rw [hq] at hm; simp at hm
      | inf => rw [hq] at hm; simp at hm
      | ninf => rw [hq] at hm; simp at hm
  · intro h
    exact List.mem_filterMap.mpr ⟨(sym, some (JsNum.num v)), h, rfl⟩

/-- Every tick the isFinite-guarded batch inserts has this cycle's
timestamp and stems from a finite entry. -/
theorem saveTicks_sound (ts : Nat) (entries : List (String × Option JsNum)) :
    ∀ t ∈ saveTicks ts entries, ∃ s q, (s, some (JsNum.num q)) ∈ entries ∧ t = Tick.mk ts s q := by
  intro t ht
  obtain ⟨p, hp, hm⟩ := List.mem_filterMap.mp ht
  cases hq : p.2 with
  | none => rw [hq] at hm; simp at hm
  | some x =>
    cases x with
    | num q =>
      rw [hq] at hm
      simp only [Option.some.injEq] at hm
      refine ⟨p.1, q, ?_, hm.symm⟩
      have hpe : (p.1, some (JsNum.num q)) = p := by rw [← hq]
      rw [hpe]
      exact hp
    | nan => rw [hq] at hm; simp at hm
    | inf => rw [hq] at hm; simp at hm
    | ninf => rw [hq] at hm; simp at hm

/-- A row produced by `if (data.F) rows.push([ts, "F", data.F])` is
exactly `(ts, sym, x)` for the truthy value `x` of the field. -/
theorem mem_pushIf (ts : Nat) (sym : String) (v : Option JsNum) (r : Nat × String × JsNum)
    (hr : r ∈ pushIf ts sym v) :
    ∃ x, v = some x ∧ x.truthy = true ∧ r = (ts, sym, x) := by
  cases v with
  | none => simp [pushIf] at hr
  | some x =>
    by_cases hx : x.truthy = true
    · refine ⟨x, rfl, hx, ?_⟩
      simpa [pushIf, hx] using hr
    · simp [pushIf, hx] at hr

/-- Every row of the truthiness-guarded batch carries a truthy value
(in particular, never `NaN`, never `0`, never `null`). -/
theorem mem_rowsTruthy (ts : Nat) (d : BatchData) (r : Nat × String × JsNum)
    (hr : r ∈ rowsTruthy ts d) : r.2.2.truthy = true := by
  rw [rowsTruthy] at hr
  simp only [List.mem_append] at hr
  rcases hr with (((hr | hr) | hr) | hr) | hr <;>
    · obtain ⟨x, -, hx, hrx⟩ := mem_pushIf _ _ _ _ hr
      rw [hrx]
      exact hx

/-! ### Claims -/

/-- Claim C3: the spec demands that an aggregation request whose
bucket-width or range parameter is invalid or parses to zero fail with
`InvalidParameter`; this theorem records what the code actually does
at such inputs: `parseRangeToMs "xyz"` silently yields the 7-day
default, `intervalToMs "xyz"` the 30-minute default, `"0m"` parses to
a zero bucket width, and `getCandles` proceeds on the defaults and
returns candles instead of failing. -/
theorem C3_invalid_param_defaults :
    parseRangeToMs "xyz" = 604800000 ∧ intervalToMs "xyz" = 1800000 ∧ intervalToMs "0m" = 0 ∧
      getCandles [Tick.mk 5 "USDKRW" 1300] 5 "USDKRW" "xyz" "xyz" =
        [Candle.mk 0 1300 1300 1300 1300] :=
  ⟨by decide, by decide, by decide, by decide⟩

/-- Claim C4 (amended): every tick persisted through the
`Number.isFinite`-guarded batch path stems from a finite entry, and a
batch of only non-finite or absent values is a no-op there; the
part_001 truthiness-guarded path never persists `NaN` (or `null`), but
it does persist infinite values — see the counterexample. -/
theorem C4_store_finite_invariant (ts : Nat) (entries : List (String × Option JsNum))
    (store : List (Nat × String × JsNum)) (d : BatchData) :
    (∀ t ∈ saveTicks ts entries, ∃ s q, (s, some (JsNum.num q)) ∈ entries ∧ t = Tick.mk ts s q) ∧
      ((∀ p ∈ entries, Option.all (fun v => ! v.isFinite) p.2 = true) →
        saveTicks ts entries = []) ∧
      (∀ r ∈ saveTicksTruthy store ts d, r ∈ store ∨ r.2.2 ≠ JsNum.nan) := by
  refine ⟨saveTicks_sound ts entries, ?_, ?_⟩
  · intro hall
    rw [saveTicks, List.filterMap_eq_nil_iff]
    intro p hp
    cases hq : p.2 with
    | none => rfl
    | some x =>
      have := hall p hp
      rw [hq] at this
      cases x with
      | num q => simp [JsNum.isFinite] at this
      | nan => rfl
      | inf => rfl
      | ninf => rfl
  · intro r hr
    rw [saveTicksTruthy] at hr
    by_cases hlen : (rowsTruthy ts d).length > 0
    · simp only [if_pos hlen, List.mem_append] at hr
      rcases hr with hr | hr
      · exact Or.inl hr
      · refine Or.inr ?_
        have := mem_rowsTruthy ts d r hr
        intro hnan
        rw [hnan] at this
        simp [JsNum.truthy] at this
    · simp only [if_neg hlen] at hr
      exact Or.inl hr

/-- Claim C4, witness: the amended invariant applied at a concrete
batch (a `NaN` and a `null` entry are both dropped by the guarded
path; a concrete truthiness-path batch contains no `NaN`). -/
theorem C4_store_finite_invariant_witness :
    (∀ p ∈ [("USDKRW", some JsNum.nan), ("DXY", (none : Option JsNum))],
        Option.all (fun v => ! JsNum.isFinite v) p.2 = true) ∧
      saveTicks 7 [("USDKRW", some JsNum.nan), ("DXY", none)] = [] ∧
      (∀ r ∈ saveTicksTruthy [] 7 (BatchData.mk (some (JsNum.num 1300)) none none none none),
        r ∈ ([] : List (Nat × String × JsNum)) ∨ r.2.2 ≠ JsNum.nan) := by
  refine ⟨by decide, ?_, ?_⟩
  · exact (C4_store_finite_invariant 7 [("USDKRW", some JsNum.nan), ("DXY", none)] []
      (BatchData.mk (some (JsNum.num 1300)) none none none none)).2.1 (by decide)
  · exact (C4_store_finite_invariant 7 [("USDKRW", some JsNum.nan), ("DXY", none)] []
      (BatchData.mk (some (JsNum.num 1300)) none none none none)).2.2

/-- Claim C4, counterexample: batch-appending `Infinity` through the
part_001 truthiness-guarded path is not a no-op — the tick is
persisted, so the store can contain a non-finite value. -/
theorem C4_counterexample :
    JsNum.isFinite JsNum.inf = false ∧
      saveTicksTruthy [] 5 (BatchData.mk none none (some JsNum.inf) none none) =
        [(5, "DXY", JsNum.inf)] := by
  decide

/-- Claim C10: in the part_001 batch-save path, a batch entry whose
obtained value is exactly `0` — a finite number — is silently skipped:
no row with that field's symbol is pushed, and queries for that symbol
see an unchanged store, even though the tick invariant
(`Number.isFinite`) admits `0`. -/
theorem C10_zero_value_skipped (ts : Nat) (d : BatchData) (store : List (Nat × String × JsNum))
    (fl : Field5) (h : fieldGet d fl = some (JsNum.num 0)) :
    JsNum.isFinite (JsNum.num 0) = true ∧
      (∀ r ∈ rowsTruthy ts d, r.2.1 ≠ fieldSym fl) ∧
      (saveTicksTruthy store ts d).filter (fun r => r.2.1 == fieldSym fl) =
        store.filter (fun r => r.2.1 == fieldSym fl) := by
  have hsym : ∀ r ∈ rowsTruthy ts d, r.2.1 ≠ fieldSym fl := by
    intro r hr
    rw [rowsTruthy] at hr
    simp only [List.mem_append] at hr
    cases fl <;> rw [fieldGet] at h <;>
      rcases hr with (((hr | hr) | hr) | hr) | hr <;>
        first
          | (rw [h] at hr; simp [pushIf, JsNum.truthy] at hr)
          | (obtain ⟨x, -, -, hrx⟩ := mem_pushIf _ _ _ _ hr
             rw [hrx, fieldSym]
             simp)
  refine ⟨rfl, hsym, ?_⟩
  have hfilter : (rowsTruthy ts d).filter (fun r => r.2.1 == fieldSym fl) = [] := by
    rw [List.filter_eq_nil_iff]
    intro r hr
    simpa using hsym r hr
  rw [saveTicksTruthy]
  by_cases hlen : (rowsTruthy ts d).length > 0
  · simp only [if_pos hlen, List.filter_append, hfilter, List.append_nil]
  · simp only [if_neg hlen]

/-- Claim C10, witness: a concrete cycle whose `USDKRW` reading is
exactly `0` writes no `USDKRW` tick. -/
theorem C10_zero_value_skipped_witness :
    fieldGet (BatchData.mk (some (JsNum.num 0)) (some (JsNum.num 1450)) none none none)
        Field5.usdkrw = some (JsNum.num 0) ∧
      JsNum.isFinite (JsNum.num 0) = true ∧
      (∀ r ∈ rowsTruthy 3 (BatchData.mk (some (JsNum.num 0)) (some (JsNum.num 1450))
          none none none), r.2.1 ≠ fieldSym Field5.usdkrw) ∧
      (saveTicksTruthy [] 3 (BatchData.mk (some (JsNum.num 0)) (some (JsNum.num 1450))
          none none none)).filter (fun r => r.2.1 == fieldSym Field5.usdkrw) =
        ([] : List (Nat × String × JsNum)).filter (fun r => r.2.1 == fieldSym Field5.usdkrw) :=
  ⟨by decide,
    C10_zero_value_skipped 3
      (BatchData.mk (some (JsNum.num 0)) (some (JsNum.num 1450)) none none none) []
      Field5.usdkrw (by decide)⟩

/-- Claim C6 (amended): a request that arrives while
`now - lastAnalysisTime < cooldown` makes no downstream generation
call and leaves the guard state (including `lastAnalysisTime`)
unchanged; it is answered either with the cooldown "not yet" outcome
carrying the remaining wait (when it has no fresh cache entry for its
subject) or — because the per-subject cache is consulted *before* the
cooldown — with its subject's fresh cached payload.  Hence at most one
downstream call is issued per cooldown window, globally across
subjects. -/
theorem C6_global_cooldown (st : GuardA) (hasKey : Bool) (symbol asof : String) (now : Nat)
    (gen : Gen) (h : now - st.lastAnalysisTime < ANALYSIS_COOLDOWN_MS) :
    (getAnalysisA st hasKey symbol asof now gen).2.2 = false ∧
      (getAnalysisA st hasKey symbol asof now gen).1 = st ∧
      ((getAnalysisA st hasKey symbol asof now gen).2.1 =
          OutcomeA.wait ((ANALYSIS_COOLDOWN_MS - (now - st.lastAnalysisTime) + 999) / 1000) ∨
        ∃ e, cacheGetA st.cache ("analysis_" ++ symbol) = some e ∧
          now - e.timestamp < ANALYSIS_TTL_MS ∧
          (getAnalysisA st hasKey symbol asof now gen).2.1 = OutcomeA.cachedHit e.data) := by
  cases hc : cacheGetA st.cache ("analysis_" ++ symbol) with
  | none =>
    refine ⟨?_, ?_, Or.inl ?_⟩ <;> simp [getAnalysisA, hc, cooldownGateA, h]
  | some e =>
    by_cases hfresh : now - e.timestamp < ANALYSIS_TTL_MS
    · refine ⟨?_, ?_, Or.inr ⟨e, rfl, hfresh, ?_⟩⟩ <;> simp [getAnalysisA, hc, hfresh]
    · refine ⟨?_, ?_, Or.inl ?_⟩ <;> simp [getAnalysisA, hc, hfresh, cooldownGateA, h]

/-- Claim C6, witness: the amended statement applied to a concrete
second request 50 s after a downstream call. -/
theorem C6_global_cooldown_witness :
    150000 - (GuardA.mk [] 100000).lastAnalysisTime < ANALYSIS_COOLDOWN_MS ∧
      ((getAnalysisA (GuardA.mk [] 100000) true "USDKRW" "t" 150000 (Gen.ok "x")).2.2 = false ∧
        (getAnalysisA (GuardA.mk [] 100000) true "USDKRW" "t" 150000 (Gen.ok "x")).1 =
          GuardA.mk [] 100000 ∧
        ((getAnalysisA (GuardA.mk [] 100000) true "USDKRW" "t" 150000 (Gen.ok "x")).2.1 =
            OutcomeA.wait ((ANALYSIS_COOLDOWN_MS -
              (150000 - (GuardA.mk [] 100000).lastAnalysisTime) + 999) / 1000) ∨
          ∃ e, cacheGetA (GuardA.mk [] 100000).cache ("analysis_" ++ "USDKRW") = some e ∧
            150000 - e.timestamp < ANALYSIS_TTL_MS ∧
            (getAnalysisA (GuardA.mk [] 100000) true "USDKRW" "t" 150000 (Gen.ok "x")).2.1 =
              OutcomeA.cachedHit e.data)) :=
  ⟨by decide,
    C6_global_cooldown (GuardA.mk [] 100000) true "USDKRW" "t" 150000 (Gen.ok "x") (by decide)⟩

/-- Claim C6, counterexample: the claim as stated is false.  A first
request at `t = 1000000` makes the downstream call and caches the
result; a second request for the same subject at `t = 1050000` —
within the 5-minute cooldown — is answered with the cached payload,
not with a "not yet" outcome, because the part_001 handler checks the
per-subject cache before consulting the cooldown. -/
theorem C6_counterexample :
    (getAnalysisA (GuardA.mk [] 0) true "USDKRW" "t1" 1000000 (Gen.ok "first")).1.lastAnalysisTime
        = 1000000 ∧
      1050000 - 1000000 < ANALYSIS_COOLDOWN_MS ∧
      OutcomeA.isWait
          (getAnalysisA (getAnalysisA (GuardA.mk [] 0) true "USDKRW" "t1" 1000000
            (Gen.ok "first")).1 true "USDKRW" "t2" 1050000 (Gen.ok "second")).2.1 = false ∧
      (getAnalysisA (getAnalysisA (GuardA.mk [] 0) true "USDKRW" "t1" 1000000
          (Gen.ok "first")).1 true "USDKRW" "t2" 1050000 (Gen.ok "second")).2.1 =
        OutcomeA.cachedHit (PayloadA.mk "USDKRW" "first" "t1" (1000000 + ANALYSIS_TTL_MS)) := by
  decide

/-- Claim C7: in the part_002 handler, when the downstream collaborator
rate-limits, the guard answers with the (possibly long-expired) cached
payload for the subject if one exists, and with a degraded placeholder
otherwise; any other generation failure is also absorbed into a
degraded placeholder; and every response of this handler — these
included — carries HTTP 200, so no hard error reaches the caller. -/
theorem C7_ratelimit_degraded (cache : List (String × EntryB)) (symbol asof : String)
    (now : Nat) :
    (∀ e, cacheGetB cache symbol = some e → ANALYSIS_TTL_MS2 ≤ now - e.ts →
        getAnalysisB cache true symbol asof now Gen.rateLimited =
          (cache, OutcomeB.degradedCached e.payload, true)) ∧
      (cacheGetB cache symbol = none →
        getAnalysisB cache true symbol asof now Gen.rateLimited =
          (cache, OutcomeB.degradedNoCache, true)) ∧
      (∀ e msg, cacheGetB cache symbol = some e → ANALYSIS_TTL_MS2 ≤ now - e.ts →
        getAnalysisB cache true symbol asof now (Gen.fail msg) =
          (cache, OutcomeB.degradedOther msg, true)) ∧
      (∀ msg, cacheGetB cache symbol = none →
        getAnalysisB cache true symbol asof now (Gen.fail msg) =
          (cache, OutcomeB.degradedOther msg, true)) ∧
      (∀ out : OutcomeB, statusOfB out = 200) := by
  refine ⟨?_, ?_, ?_, ?_, ?_⟩
  · intro e hGet hstale
    simp [getAnalysisB, hGet, Nat.not_lt.mpr hstale, analysisTryB]
  · intro hGet
    simp [getAnalysisB, hGet, analysisTryB]
  · intro e msg hGet hstale
    simp [getAnalysisB, hGet, Nat.not_lt.mpr hstale, analysisTryB]
  · intro msg hGet
    simp [getAnalysisB, hGet, analysisTryB]
  · intro out
    cases out <;> rfl

/-- Claim C7, witness: a stale (5-hours-old against a 2-hour TTL)
cache entry is served degraded on a rate limit, and with an empty
cache the degraded placeholder is returned. -/
theorem C7_ratelimit_degraded_witness :
    cacheGetB [("USDKRW", EntryB.mk 0 (PayloadB.mk "t0" "USDKRW" "old"))] "USDKRW" =
        some (EntryB.mk 0 (PayloadB.mk "t0" "USDKRW" "old")) ∧
      ANALYSIS_TTL_MS2 ≤ 18000000 - (EntryB.mk 0 (PayloadB.mk "t0" "USDKRW" "old")).ts ∧
      getAnalysisB [("USDKRW", EntryB.mk 0 (PayloadB.mk "t0" "USDKRW" "old"))] true "USDKRW"
          "t1" 18000000 Gen.rateLimited =
        ([("USDKRW", EntryB.mk 0 (PayloadB.mk "t0" "USDKRW" "old"))],
          OutcomeB.degradedCached (PayloadB.mk "t0" "USDKRW" "old"), true) ∧
      getAnalysisB [] true "EURKRW" "t1" 18000000 Gen.rateLimited =
        ([], OutcomeB.degradedNoCache, true) :=
  ⟨by decide, by decide,
    (C7_ratelimit_degraded [("USDKRW", EntryB.mk 0 (PayloadB.mk "t0" "USDKRW" "old"))]
      "USDKRW" "t1" 18000000).1 (EntryB.mk 0 (PayloadB.mk "t0" "USDKRW" "old"))
      (by decide) (by decide),
    (C7_ratelimit_degraded [] "EURKRW" "t1" 18000000).2.1 (by decide)⟩

/-- Claim C8: in the part_002 handler, a request whose subject has a
cache entry younger than the TTL is answered immediately from the
cache with no downstream call and no state change; once the TTL has
elapsed, the next request (with the collaborator configured) makes the
downstream call — exactly one, since the handler calls the
collaborator at most once per request. -/
theorem C8_cache_ttl (cache : List (String × EntryB)) (hasKey : Bool) (symbol asof : String)
    (now : Nat) (gen : Gen) (e : EntryB) (hGet : cacheGetB cache symbol = some e) :
    (now - e.ts < ANALYSIS_TTL_MS2 →
        getAnalysisB cache hasKey symbol asof now gen =
          (cache, OutcomeB.cachedHit e.payload ((now - e.ts) / 1000), false)) ∧
      (ANALYSIS_TTL_MS2 ≤ now - e.ts →
        (getAnalysisB cache true symbol asof now gen).2.2 = true) := by
  constructor
  · intro hfresh
    simp [getAnalysisB, hGet, hfresh]
  · intro hstale
    cases gen <;> simp [getAnalysisB, hGet, Nat.not_lt.mpr hstale, analysisTryB]

/-- Claim C8, witness: a 1000-second-old entry (TTL 2 h) is served
with no downstream call; the same entry queried 5 h later is stale and
the request makes exactly one downstream call. -/
theorem C8_cache_ttl_witness :
    cacheGetB [("USDKRW", EntryB.mk 0 (PayloadB.mk "t0" "USDKRW" "old"))] "USDKRW" =
        some (EntryB.mk 0 (PayloadB.mk "t0" "USDKRW" "old")) ∧
      1000000 - (EntryB.mk 0 (PayloadB.mk "t0" "USDKRW" "old")).ts < ANALYSIS_TTL_MS2 ∧
      getAnalysisB [("USDKRW", EntryB.mk 0 (PayloadB.mk "t0" "USDKRW" "old"))] true "USDKRW"
          "t1" 1000000 (Gen.ok "new") =
        ([("USDKRW", EntryB.mk 0 (PayloadB.mk "t0" "USDKRW" "old"))],
          OutcomeB.cachedHit (PayloadB.mk "t0" "USDKRW" "old")
            ((1000000 - (EntryB.mk 0 (PayloadB.mk "t0" "USDKRW" "old")).ts) / 1000), false) ∧
      ANALYSIS_TTL_MS2 ≤ 18000000 - (EntryB.mk 0 (PayloadB.mk "t0" "USDKRW" "old")).ts ∧
      (getAnalysisB [("USDKRW", EntryB.mk 0 (PayloadB.mk "t0" "USDKRW" "old"))] true "USDKRW"
          "t1" 18000000 (Gen.ok "new")).2.2 = true :=
  ⟨by decide, by decide,
    (C8_cache_ttl [("USDKRW", EntryB.mk 0 (PayloadB.mk "t0" "USDKRW" "old"))] true "USDKRW"
      "t1" 1000000 (Gen.ok "new") (EntryB.mk 0 (PayloadB.mk "t0" "USDKRW" "old"))
      (by decide)).1 (by decide),
    by decide,
    (C8_cache_ttl [("USDKRW", EntryB.mk 0 (PayloadB.mk "t0" "USDKRW" "old"))] true "USDKRW"
      "t1" 18000000 (Gen.ok "new") (EntryB.mk 0 (PayloadB.mk "t0" "USDKRW" "old"))
      (by decide)).2 (by decide)⟩

/-- Claim C1 (amended): in a cycle where the FX fetch succeeds with
both values and exactly one of the three single-indicator fetches
fails, the snapshot status is the degraded status (`"WARN"` in the
source), every successful indicator's slot holds its newly fetched
value, and the failed indicator's slot keeps its pre-cycle value; the
batch written at this cycle's timestamp contains a tick for the failed
indicator if and only if its pre-cycle slot held a (stale) value — in
particular no tick is written only when the slot was `null`. -/
theorem C1_partial_failure (st : SnapState) (f : FetchOutcomes) (ts : Nat) (asof : String)
    (i : Ind3) (a b : ℚ) (m : String)
    (hfx : f.fx = Fetched.ok (some a, some b))
    (hi : fetchOf f i = Fetched.err m)
    (hok : ∀ j, j ≠ i → ∃ v, fetchOf f j = Fetched.ok v) :
    (refresh st f ts asof).1.status = Status.WARN ∧
      (refresh st f ts asof).1.usdkrw = some a ∧
      (refresh st f ts asof).1.eurkrw = some b ∧
      (∀ j v, j ≠ i → fetchOf f j = Fetched.ok v → slotOf (refresh st f ts asof).1 j = some v) ∧
      slotOf (refresh st f ts asof).1 i = slotOf st i ∧
      (∀ v, Tick.mk ts (symOf i) v ∈ (refresh st f ts asof).2 ↔ slotOf st i = some v) := by
  cases i with
  | kr =>
    obtain ⟨vu, hu⟩ := hok Ind3.us (by decide)
    obtain ⟨vd, hd⟩ := hok Ind3.dxy (by decide)
    simp only [fetchOf] at hi hu hd
    refine ⟨?_, ?_, ?_, ?_, ?_, ?_⟩
    · simp [refresh, hfx, hi, errOf]
    · simp [refresh, hfx, overwriteIfNum]
    · simp [refresh, hfx, overwriteIfNum]
    · intro j v hj hjv
      cases j with
      | kr => exact absurd rfl hj
      | us =>
        simp only [fetchOf] at hjv
        rw [hu] at hjv
        injection hjv with hv
        simp [slotOf, refresh, hu, mergeOpt, hv]
      | dxy =>
        simp only [fetchOf] at hjv
        rw [hd] at hjv
        injection hjv with hv
        simp [slotOf, refresh, hd, mergeOpt, hv]
    · simp [slotOf, refresh, hi, mergeOpt]
    · intro v
      simp only [symOf, refresh, hi, hu, hd, hfx, mergeOpt, overwriteIfNum]
      rw [mem_saveTicks]
      cases hkr : st.kr10y with
      | none => simp [spreadOf, slotOf, hkr]
      | some k => simp [spreadOf, slotOf, hkr, eq_comm]
  | us =>
    obtain ⟨vk, hk⟩ := hok Ind3.kr (by decide)
    obtain ⟨vd, hd⟩ := hok Ind3.dxy (by decide)
    simp only [fetchOf] at hi hk hd
    refine ⟨?_, ?_, ?_, ?_, ?_, ?_⟩
    · simp [refresh, hfx, hi, errOf]
    · simp [refresh, hfx, overwriteIfNum]
    · simp [refresh, hfx, overwriteIfNum]
    · intro j v hj hjv
      cases j with
      | us => exact absurd rfl hj
      | kr =>
        simp only [fetchOf] at hjv
        rw [hk] at hjv
        injection hjv with hv
        simp [slotOf, refresh, hk, mergeOpt, hv]
      | dxy =>
        simp only [fetchOf] at hjv
        rw [hd] at hjv
        injection hjv with hv
        simp [slotOf, refresh, hd, mergeOpt, hv]
    · simp [slotOf, refresh, hi, mergeOpt]
    · intro v
      simp only [symOf, refresh, hi, hk, hd, hfx, mergeOpt, overwriteIfNum]
      rw [mem_saveTicks]
      cases hus : st.us10y with
      | none => simp [spreadOf, slotOf, hus]
      | some u => simp [spreadOf, slotOf, hus, eq_comm]
  | dxy =>
    obtain ⟨vk, hk⟩ := hok Ind3.kr (by decide)
    obtain ⟨vu, hu⟩ := hok Ind3.us (by decide)
    simp only [fetchOf] at hi hk hu
    refine ⟨?_, ?_, ?_, ?_, ?_, ?_⟩
    · simp [refresh, hfx, hi, errOf]
    · simp [refresh, hfx, overwriteIfNum]
    · simp [refresh, hfx, overwriteIfNum]
    · intro j v hj hjv
      cases j with
      | dxy => exact absurd rfl hj
      | kr =>
        simp only [fetchOf] at hjv
        rw [hk] at hjv
        injection hjv with hv
        simp [slotOf, refresh, hk, mergeOpt, hv]
      | us =>
        simp only [fetchOf] at hjv
        rw [hu] at hjv
        injection hjv with hv
        simp [slotOf, refresh, hu, mergeOpt, hv]
    · simp [slotOf, refresh, hi, mergeOpt]
    · intro v
      simp only [symOf, refresh, hi, hk, hu, hfx, mergeOpt, overwriteIfNum]
      rw [mem_saveTicks]
      cases hdx : st.dxy with
      | none => simp [spreadOf, slotOf, hdx]
      | some x => simp [spreadOf, slotOf, hdx, eq_comm]

/-- Claim C1, witness: a concrete cycle in which only the DXY fetch
fails, with a stale DXY slot from an earlier cycle. -/
theorem C1_partial_failure_witness :
    (FetchOutcomes.mk (Fetched.ok (some 1305, some 1405)) (Fetched.ok 3) (Fetched.ok 4)
        (Fetched.err "DXY parse failed")).fx = Fetched.ok (some 1305, some 1405) ∧
      fetchOf (FetchOutcomes.mk (Fetched.ok (some 1305, some 1405)) (Fetched.ok 3)
        (Fetched.ok 4) (Fetched.err "DXY parse failed")) Ind3.dxy =
        Fetched.err "DXY parse failed" ∧
      ((refresh (SnapState.mk (some "t0") Status.OK (some 1300) (some 1400) (some 97) (some 3)
            (some 4) (some 1) [])
          (FetchOutcomes.mk (Fetched.ok (some 1305, some 1405)) (Fetched.ok 3) (Fetched.ok 4)
            (Fetched.err "DXY parse failed")) 777 "t1").1.status = Status.WARN ∧
        (refresh (SnapState.mk (some "t0") Status.OK (some 1300) (some 1400) (some 97) (some 3)
            (some 4) (some 1) [])
          (FetchOutcomes.mk (Fetched.ok (some 1305, some 1405)) (Fetched.ok 3) (Fetched.ok 4)
            (Fetched.err "DXY parse failed")) 777 "t1").1.usdkrw = some 1305 ∧
        (refresh (SnapState.mk (some "t0") Status.OK (some 1300) (some 1400) (some 97) (some 3)
            (some 4) (some 1) [])
          (FetchOutcomes.mk (Fetched.ok (some 1305, some 1405)) (Fetched.ok 3) (Fetched.ok 4)
            (Fetched.err "DXY parse failed")) 777 "t1").1.eurkrw = some 1405 ∧
        (∀ j v, j ≠ Ind3.dxy →
          fetchOf (FetchOutcomes.mk (Fetched.ok (some 1305, some 1405)) (Fetched.ok 3)
            (Fetched.ok 4) (Fetched.err "DXY parse failed")) j = Fetched.ok v →
          slotOf (refresh (SnapState.mk (some "t0") Status.OK (some 1300) (some 1400) (some 97)
              (some 3) (some 4) (some 1) [])
            (FetchOutcomes.mk (Fetched.ok (some 1305, some 1405)) (Fetched.ok 3) (Fetched.ok 4)
              (Fetched.err "DXY parse failed")) 777 "t1").1 j = some v) ∧
        slotOf (refresh (SnapState.mk (some "t0") Status.OK (some 1300) (some 1400) (some 97)
            (some 3) (some 4) (some 1) [])
          (FetchOutcomes.mk (Fetched.ok (some 1305, some 1405)) (Fetched.ok 3) (Fetched.ok 4)
            (Fetched.err "DXY parse failed")) 777 "t1").1 Ind3.dxy =
          slotOf (SnapState.mk (some "t0") Status.OK (some 1300) (some 1400) (some 97) (some 3)
            (some 4) (some 1) []) Ind3.dxy ∧
        (∀ v, Tick.mk 777 (symOf Ind3.dxy) v ∈
            (refresh (SnapState.mk (some "t0") Status.OK (some 1300) (some 1400) (some 97)
                (some 3) (some 4) (some 1) [])
              (FetchOutcomes.mk (Fetched.ok (some 1305, some 1405)) (Fetched.ok 3) (Fetched.ok 4)
                (Fetched.err "DXY parse failed")) 777 "t1").2 ↔
          slotOf (SnapState.mk (some "t0") Status.OK (some 1300) (some 1400) (some 97) (some 3)
            (some 4) (some 1) []) Ind3.dxy = some v)) :=
  ⟨rfl, rfl,
    C1_partial_failure
      (SnapState.mk (some "t0") Status.OK (some 1300) (some 1400) (some 97) (some 3) (some 4)
        (some 1) [])
      (FetchOutcomes.mk (Fetched.ok (some 1305, some 1405)) (Fetched.ok 3) (Fetched.ok 4)
        (Fetched.err "DXY parse failed")) 777 "t1" Ind3.dxy 1305 1405 "DXY parse failed" rfl rfl
      (fun j hj => by
        cases j with
        | kr => exact ⟨3, rfl⟩
        | us => exact ⟨4, rfl⟩
        | dxy => exact absurd rfl hj)⟩

/-- Claim C1, counterexample: the claim as stated is false.  In a
cycle where only the DXY fetch fails but the DXY slot holds a stale
value `97` from an earlier cycle, the batch written at this cycle's
timestamp does contain a DXY tick (with the stale value), contradicting
"the tick store contains no tick for the failed indicator at this
cycle's timestamp". -/
theorem C1_counterexample :
    fetchOf (FetchOutcomes.mk (Fetched.ok (some 1305, some 1405)) (Fetched.ok 3) (Fetched.ok 4)
        (Fetched.err "DXY parse failed")) Ind3.dxy = Fetched.err "DXY parse failed" ∧
      Tick.mk 777 "DXY" 97 ∈
        (refresh (SnapState.mk (some "t0") Status.OK (some 1300) (some 1400) (some 97) (some 3)
            (some 4) (some 1) [])
          (FetchOutcomes.mk (Fetched.ok (some 1305, some 1405)) (Fetched.ok 3) (Fetched.ok 4)
            (Fetched.err "DXY parse failed")) 777 "t1").2 := by
  refine ⟨rfl, ?_⟩
  simp [refresh, saveTicks, mergeOpt, overwriteIfNum, spreadOf]

/-- Claim C9 (amended): the SPREAD10Y tick is written to a cycle's
batch whenever both input slots hold values *after this cycle's merge*
— whether obtained this cycle or carried over, stale, from an earlier
cycle — with value `round3(us10y - kr10y)` of the current slots; it is
skipped only when an input slot is empty and no spread was ever
computed before. -/
theorem C9_spread_stale_inputs (st : SnapState) (f : FetchOutcomes) (ts : Nat) (asof : String) :
    (∀ u k, (refresh st f ts asof).1.us10y = some u → (refresh st f ts asof).1.kr10y = some k →
        Tick.mk ts "SPREAD10Y" (round3 (u - k)) ∈ (refresh st f ts asof).2) ∧
      (((refresh st f ts asof).1.us10y = none ∨ (refresh st f ts asof).1.kr10y = none) →
        st.spread10y = none →
        ∀ v, Tick.mk ts "SPREAD10Y" v ∉ (refresh st f ts asof).2) := by
  constructor
  · intro u k hu hk
    simp only [refresh] at hu hk ⊢
    rw [mem_saveTicks]
    rw [hu, hk]
    simp [spreadOf]
  · intro hnone hpre v hmem
    simp only [refresh] at hnone hmem
    rw [mem_saveTicks] at hmem
    cases hus : mergeOpt st.us10y f.us with
    | none => simp [hus, spreadOf, hpre] at hmem
    | some u =>
      rcases hnone with h | h
      · rw [hus] at h
        exact absurd h (by simp)
      · simp [hus, h, spreadOf, hpre] at hmem

/-- Claim C9, witness: a cycle whose US10Y fetch fails over a stale
`us10y = 4` slot still writes the spread (first part); a cycle with
empty input slots and no previous spread writes none (second part). -/
theorem C9_spread_stale_inputs_witness :
    ((refresh (SnapState.mk (some "t0") Status.OK none none none none (some 4) none [])
        (FetchOutcomes.mk (Fetched.ok (some 1300, some 1400)) (Fetched.ok 3)
          (Fetched.err "US bond parse failed") (Fetched.ok 97)) 11 "t1").1.us10y = some 4) ∧
      ((refresh (SnapState.mk (some "t0") Status.OK none none none none (some 4) none [])
        (FetchOutcomes.mk (Fetched.ok (some 1300, some 1400)) (Fetched.ok 3)
          (Fetched.err "US bond parse failed") (Fetched.ok 97)) 11 "t1").1.kr10y = some 3) ∧
      Tick.mk 11 "SPREAD10Y" (round3 (4 - 3)) ∈
        (refresh (SnapState.mk (some "t0") Status.OK none none none none (some 4) none [])
          (FetchOutcomes.mk (Fetched.ok (some 1300, some 1400)) (Fetched.ok 3)
            (Fetched.err "US bond parse failed") (Fetched.ok 97)) 11 "t1").2 ∧
      ((refresh (SnapState.mk none Status.BOOT none none none none none none [])
        (FetchOutcomes.mk (Fetched.err "fx failed") (Fetched.err "kr failed")
          (Fetched.err "us failed") (Fetched.err "dxy failed")) 11 "t1").1.us10y = none) ∧
      (∀ v, Tick.mk 11 "SPREAD10Y" v ∉
        (refresh (SnapState.mk none Status.BOOT none none none none none none [])
          (FetchOutcomes.mk (Fetched.err "fx failed") (Fetched.err "kr failed")
            (Fetched.err "us failed") (Fetched.err "dxy failed")) 11 "t1").2) :=
  ⟨rfl, rfl,
    (C9_spread_stale_inputs
      (SnapState.mk (some "t0") Status.OK none none none none (some 4) none [])
      (FetchOutcomes.mk (Fetched.ok (some 1300, some 1400)) (Fetched.ok 3)
        (Fetched.err "US bond parse failed") (Fetched.ok 97)) 11 "t1").1 4 3 rfl rfl,
    rfl,
    (C9_spread_stale_inputs (SnapState.mk none Status.BOOT none none none none none none [])
      (FetchOutcomes.mk (Fetched.err "fx failed") (Fetched.err "kr failed")
        (Fetched.err "us failed") (Fetched.err "dxy failed")) 11 "t1").2 (Or.inl rfl) rfl⟩

/-- Claim C9, counterexample: the claim as stated is false.  In a
cycle whose KR10Y fetch fails, with a stale `kr10y = 3` from an
earlier cycle and a fresh `us10y = 4`, the batch still receives a
SPREAD10Y tick computed from the stale input — the computed indicator
is not skipped. -/
theorem C9_counterexample :
    fetchOf (FetchOutcomes.mk (Fetched.ok (some 1300, some 1400))
        (Fetched.err "Bond parse failed") (Fetched.ok 4) (Fetched.ok 97)) Ind3.kr =
      Fetched.err "Bond parse failed" ∧
      Tick.mk 9 "SPREAD10Y" (round3 (4 - 3)) ∈
        (refresh (SnapState.mk (some "t0") Status.OK none none none (some 3) none none [])
          (FetchOutcomes.mk (Fetched.ok (some 1300, some 1400))
            (Fetched.err "Bond parse failed") (Fetched.ok 4) (Fetched.ok 97)) 9 "t1").2 := by
  refine ⟨rfl, ?_⟩
  simp [refresh, saveTicks, mergeOpt, overwriteIfNum, spreadOf]

/-- Helper: a key `mapGet` finds is a binding of the association
list. -/
theorem mapGet_mem : ∀ (m : List (Nat × Candle)) (b : Nat) (x : Candle),
    mapGet m b = some x → (b, x) ∈ m
  | [], _, _, h => by simp [mapGet] at h
  | (k, y) :: rest, b, x, h => by
    by_cases hk : k = b
    · subst hk
      rw [mapGet, if_pos rfl] at h
      injection h with h
      subst h
      exact List.mem_cons_self _ _
    · rw [mapGet, if_neg hk] at h
      exact List.mem_cons_of_mem _ (mapGet_mem rest b x h)

/-- Claim C2: for ticks processed in ascending timestamp order, every
emitted candle's bucket is non-empty, its `open` is the value of an
earliest tick of the bucket, its `close` the value of a latest tick,
and its `high`/`low` are the maximum/minimum of the bucket's values;
conversely every non-empty bucket emits a candle; in particular the
ticks `[(0, 100), (30000, 110), (59999, 90)]` with bucket width
`60000` yield exactly one candle
`{open: 100, high: 110, low: 90, close: 90}`. -/
theorem C2_ohlc_aggregation (w : Nat) (rows : List (Nat × ℚ))
    (hsorted : rows.Pairwise (fun x y => x.1 ≤ y.1)) :
    (∀ cd ∈ aggregateRows w rows,
        bucketRows w cd.t rows ≠ [] ∧
        (∃ r ∈ bucketRows w cd.t rows, cd.o = r.2 ∧ ∀ q ∈ bucketRows w cd.t rows, r.1 ≤ q.1) ∧
        (∃ r ∈ bucketRows w cd.t rows, cd.c = r.2 ∧ ∀ q ∈ bucketRows w cd.t rows, q.1 ≤ r.1) ∧
        (cd.h ∈ (bucketRows w cd.t rows).map Prod.snd ∧
          ∀ u ∈ (bucketRows w cd.t rows).map Prod.snd, u ≤ cd.h) ∧
        (cd.l ∈ (bucketRows w cd.t rows).map Prod.snd ∧
          ∀ u ∈ (bucketRows w cd.t rows).map Prod.snd, cd.l ≤ u)) ∧
      (∀ r ∈ rows, ∃ cd ∈ aggregateRows w rows, cd.t = bucketStart r.1 w) ∧
      aggregateRows 60000 [(0, 100), (30000, 110), (59999, 90)] =
        [Candle.mk 0 100 110 90 90] := by
  refine ⟨?_, ?_, by decide⟩
  · intro cd hcd
    obtain ⟨v, vs, hmap, ho, hc, hh, hl⟩ := aggregate_candle_spec w rows cd hcd
    have hmap' : (bucketRows w cd.t rows).map Prod.snd = v :: vs := hmap
    have hps : (bucketRows w cd.t rows).Pairwise (fun x y => x.1 ≤ y.1) :=
      hsorted.sublist (List.filter_sublist rows)
    cases hbr : bucketRows w cd.t rows with
    | nil => rw [hbr] at hmap'; simp at hmap'
    | cons r0 br' =>
      rw [hbr] at hmap' hps
      simp only [List.map_cons] at hmap'
      injection hmap' with hv hvs
      refine ⟨by simp, ?_, ?_, ?_, ?_⟩
      · exact ⟨r0, List.mem_cons_self _ _, by rw [ho, hv], pairwise_le_head r0 br' hps⟩
      · obtain ⟨r, hr, hval, hmax⟩ := pairwise_le_lastD br' r0 hps
        refine ⟨r, hr, ?_, hmax⟩
        rw [hc, hval, hv, hvs]
      · constructor
        · rw [List.map_cons, hv, hvs, hh]
          exact foldl_max_mem vs v
        · intro u hu
          rw [List.map_cons, hv, hvs] at hu
          rw [hh]
          exact le_foldl_max vs v u hu
      · constructor
        · rw [List.map_cons, hv, hvs, hl]
          exact foldl_min_mem vs v
        · intro u hu
          rw [List.map_cons, hv, hvs] at hu
          rw [hl]
          exact foldl_min_le vs v u hu
  · intro r hr
    have hrf : r ∈ rows.filter (fun x => decide (bucketStart x.1 w = bucketStart r.1 w)) :=
      List.mem_filter.mpr ⟨hr, by simp⟩
    cases hvals :
        (rows.filter (fun x => decide (bucketStart x.1 w = bucketStart r.1 w))).map Prod.snd with
    | nil =>
      rw [List.map_eq_nil_iff] at hvals
      rw [hvals] at hrf
      simp at hrf
    | cons v vs =>
      have hget := mapGet_foldRows w rows (bucketStart r.1 w)
      rw [hvals, List.foldl_cons] at hget
      have hstep : ohlcAcc (bucketStart r.1 w) none v =
          some (newCandle (bucketStart r.1 w) v) := rfl
      rw [hstep, foldl_ohlcAcc_some] at hget
      refine ⟨vs.foldl updCandle (newCandle (bucketStart r.1 w) v),
        (List.mem_insertionSort candleLe).mpr
          (List.mem_map_of_mem Prod.snd (mapGet_mem _ _ _ hget)), ?_⟩
      rw [foldl_updCandle_t]
      rfl

/-- Claim C2, witness: the characterisation applied to the concrete
tick sequence of the claim. -/
theorem C2_ohlc_aggregation_witness :
    ([((0 : Nat), (100 : ℚ)), (30000, 110), (59999, 90)].Pairwise (fun x y => x.1 ≤ y.1)) ∧
      ((∀ cd ∈ aggregateRows 60000 [((0 : Nat), (100 : ℚ)), (30000, 110), (59999, 90)],
          bucketRows 60000 cd.t [((0 : Nat), (100 : ℚ)), (30000, 110), (59999, 90)] ≠ [] ∧
          (∃ r ∈ bucketRows 60000 cd.t [((0 : Nat), (100 : ℚ)), (30000, 110), (59999, 90)],
            cd.o = r.2 ∧
            ∀ q ∈ bucketRows 60000 cd.t [((0 : Nat), (100 : ℚ)), (30000, 110), (59999, 90)],
              r.1 ≤ q.1) ∧
          (∃ r ∈ bucketRows 60000 cd.t [((0 : Nat), (100 : ℚ)), (30000, 110), (59999, 90)],
            cd.c = r.2 ∧
            ∀ q ∈ bucketRows 60000 cd.t [((0 : Nat), (100 : ℚ)), (30000, 110), (59999, 90)],
              q.1 ≤ r.1) ∧
          (cd.h ∈ (bucketRows 60000 cd.t
              [((0 : Nat), (100 : ℚ)), (30000, 110), (59999, 90)]).map Prod.snd ∧
            ∀ u ∈ (bucketRows 60000 cd.t
              [((0 : Nat), (100 : ℚ)), (30000, 110), (59999, 90)]).map Prod.snd, u ≤ cd.h) ∧
          (cd.l ∈ (bucketRows 60000 cd.t
              [((0 : Nat), (100 : ℚ)), (30000, 110), (59999, 90)]).map Prod.snd ∧
            ∀ u ∈ (bucketRows 60000 cd.t
              [((0 : Nat), (100 : ℚ)), (30000, 110), (59999, 90)]).map Prod.snd, cd.l ≤ u)) ∧
        (∀ r ∈ [((0 : Nat), (100 : ℚ)), (30000, 110), (59999, 90)],
          ∃ cd ∈ aggregateRows 60000 [((0 : Nat), (100 : ℚ)), (30000, 110), (59999, 90)],
            cd.t = bucketStart r.1 60000) ∧
        aggregateRows 60000 [(0, 100), (30000, 110), (59999, 90)] =
          [Candle.mk 0 100 110 90 90]) ∧
      getCandles [Tick.mk 0 "X" 100, Tick.mk 30000 "X" 110, Tick.mk 59999 "X" 90] 59999 "X"
        "1m" "24h" = [Candle.mk 0 100 110 90 90] :=
  ⟨by decide,
    C2_ohlc_aggregation 60000 [((0 : Nat), (100 : ℚ)), (30000, 110), (59999, 90)] (by decide),
    by decide⟩

/-- Claim C5: a query over a closed interval covering all of an
indicator's appended finite ticks returns a sequence sorted ascending
by timestamp that is a permutation of exactly that indicator's
appended ticks — none dropped, none added, duplicate
timestamp/indicator pairs all retained. -/
theorem C5_query_roundtrip (store : List Tick) (sym : String) (a b : Nat)
    (hcov : ∀ t ∈ store, t.symbol = sym → a ≤ t.ts ∧ t.ts ≤ b) :
    (selectTicks store sym a b).Pairwise (fun x y => x.1 ≤ y.1) ∧
      (selectTicks store sym a b).Perm
        ((store.filter (fun t => t.symbol == sym)).map (fun t => (t.ts, t.value))) := by
  constructor
  · have hs : (selectTicks store sym a b).Pairwise tsLe :=
      List.sorted_insertionSort tsLe _
    exact hs.imp (fun h => h)
  · have hperm :
        (selectTicks store sym a b).Perm
          ((store.filter
            (fun t => t.symbol == sym && decide (a ≤ t.ts) && decide (t.ts ≤ b))).map
              (fun t => (t.ts, t.value))) :=
      List.perm_insertionSort tsLe _
    have hfe :
        store.filter (fun t => t.symbol == sym && decide (a ≤ t.ts) && decide (t.ts ≤ b)) =
          store.filter (fun t => t.symbol == sym) := by
      apply List.filter_congr
      intro t ht
      by_cases hsym : t.symbol = sym
      · obtain ⟨h1, h2⟩ := hcov t ht hsym
        simp [hsym, h1, h2]
      · rw [show (t.symbol == sym) = false from beq_eq_false_iff_ne.mpr hsym]
        simp
    rw [hfe] at hperm
    exact hperm

/-- Claim C5, witness: the round trip on a concrete store with a
duplicated tick and a tick of another indicator. -/
theorem C5_query_roundtrip_witness :
    (∀ t ∈ [Tick.mk 10 "USDKRW" 5, Tick.mk 5 "USDKRW" 7, Tick.mk 5 "USDKRW" 7,
        Tick.mk 8 "EURKRW" 3], t.symbol = "USDKRW" → 0 ≤ t.ts ∧ t.ts ≤ 100) ∧
      ((selectTicks [Tick.mk 10 "USDKRW" 5, Tick.mk 5 "USDKRW" 7, Tick.mk 5 "USDKRW" 7,
          Tick.mk 8 "EURKRW" 3] "USDKRW" 0 100).Pairwise (fun x y => x.1 ≤ y.1) ∧
        (selectTicks [Tick.mk 10 "USDKRW" 5, Tick.mk 5 "USDKRW" 7, Tick.mk 5 "USDKRW" 7,
            Tick.mk 8 "EURKRW" 3] "USDKRW" 0 100).Perm
          (([Tick.mk 10 "USDKRW" 5, Tick.mk 5 "USDKRW" 7, Tick.mk 5 "USDKRW" 7,
            Tick.mk 8 "EURKRW" 3].filter (fun t => t.symbol == "USDKRW")).map
              (fun t => (t.ts, t.value)))) :=
  ⟨by decide,
    C5_query_roundtrip [Tick.mk 10 "USDKRW" 5, Tick.mk 5 "USDKRW" 7, Tick.mk 5 "USDKRW" 7,
      Tick.mk 8 "EURKRW" 3] "USDKRW" 0 100 (by decide)⟩

end FxDash
